import Mathlib

/-!
Verification of the pattern-generation engine of the connectedness /
numerosity experiment (`experiment1_connectedness.py` and the step-by-step
scripts).  The Python code works on integer pixel coordinates
(`random.randint`, dot tuples, `int(length * cos angle)`), so all points and
segments are embedded with integer coordinates; the floating-point
`math.sqrt` comparisons of the source are rendered as the equivalent
comparisons of squared distances, and the parametric intersection solver is
carried out exactly over `ℚ`.  Randomness is modelled by explicit oracle
streams: `random.randint lo hi` becomes `lo + n % (hi - lo + 1)` applied to
the next stream value (surjective onto `[lo, hi]`), the result of
`random.shuffle` is passed in as a list, and the trigonometric displacement
`(int (L cos θ), int (L sin θ))` of a free-line candidate is abstracted as an
oracle-supplied integer vector.
-/

namespace Exp1

/-- Pixel point with integer coordinates, as produced by `random.randint`
and consumed by the geometry helpers of `experiment1_connectedness.py`. -/
abbrev Pt := ℤ × ℤ

/-- Line segment: ordered pair of endpoints, as the `((x1,y1),(x2,y2))`
tuples of the source. -/
abbrev Seg := Pt × Pt

/-- Constant `PATTERN_WIDTH` of `experiment1_connectedness.py`. -/
def PATTERN_WIDTH : ℤ := 280

/-- Constant `PATTERN_HEIGHT` of `experiment1_connectedness.py`. -/
def PATTERN_HEIGHT : ℤ := 360

/-- Constant `MIN_DOT_DISTANCE` of `experiment1_connectedness.py`. -/
def MIN_DOT_DISTANCE : ℤ := 42

/-- Constant `MIN_DOT_BOUNDARY_DISTANCE` of `experiment1_connectedness.py`. -/
def MIN_DOT_BOUNDARY_DISTANCE : ℤ := 20

/-- Constant `MIN_LINE_LENGTH` of `experiment1_connectedness.py`. -/
def MIN_LINE_LENGTH : ℤ := 30

/-- Constant `MAX_LINE_LENGTH` of `experiment1_connectedness.py`. -/
def MAX_LINE_LENGTH : ℤ := 60

/-- Constant `MIN_LINE_DOT_DISTANCE` of `experiment1_connectedness.py`,
as a rational because the free-line check scales it by `0.8`. -/
def MIN_LINE_DOT_DISTANCE : ℚ := 12

/-- Constant `NUM_LINES` of `experiment1_connectedness.py`. -/
def NUM_LINES : ℕ := 4

/-- Squared Euclidean distance between two integer points; the source
compares `math.sqrt` of this against thresholds, which is equivalent to
comparing this value against the squared threshold. -/
def dotDistSq (a b : Pt) : ℤ := (a.1 - b.1) ^ 2 + (a.2 - b.2) ^ 2

/-- Squared length of a segment, used for the
`MIN_LINE_LENGTH <= distance <= MAX_LINE_LENGTH` test of
`_generate_connecting_lines`. -/
def segLenSq (s : Seg) : ℤ := dotDistSq s.1 s.2

/-- Denominator `(x1-x2)*(y3-y4) - (y1-y2)*(x3-x4)` of `_lines_intersect`. -/
def segDenom (l1 l2 : Seg) : ℚ :=
  ((l1.1.1 : ℚ) - l1.2.1) * ((l2.1.2 : ℚ) - l2.2.2) -
    ((l1.1.2 : ℚ) - l1.2.2) * ((l2.1.1 : ℚ) - l2.2.1)

/-- Numerator of the parameter `t` of `_lines_intersect`:
`(x1-x3)*(y3-y4) - (y1-y3)*(x3-x4)`. -/
def segTNum (l1 l2 : Seg) : ℚ :=
  ((l1.1.1 : ℚ) - l2.1.1) * ((l2.1.2 : ℚ) - l2.2.2) -
    ((l1.1.2 : ℚ) - l2.1.2) * ((l2.1.1 : ℚ) - l2.2.1)

/-- Numerator of the parameter `u` of `_lines_intersect`:
`-((x1-x2)*(y1-y3) - (y1-y2)*(x1-x3))`. -/
def segUNum (l1 l2 : Seg) : ℚ :=
  -(((l1.1.1 : ℚ) - l1.2.1) * ((l1.1.2 : ℚ) - l2.1.2) -
      ((l1.1.2 : ℚ) - l1.2.2) * ((l1.1.1 : ℚ) - l2.1.1))

/-- Segment-intersection predicate `_lines_intersect` of
`experiment1_connectedness.py` (also `lines_intersect` of
`step2_line_generation.py`): solve the 2x2 system and report a crossing iff
both parameters lie strictly inside `(0, 1)`.  On integer coordinates the
denominator is an integer, so the source's guard `abs(denom) < 1e-10` is
exactly `denom = 0`. -/
def lines_intersect (l1 l2 : Seg) : Bool :=
  let denom := segDenom l1 l2
  if denom = 0 then false
  else
    let t := segTNum l1 l2 / denom
    let u := segUNum l1 l2 / denom
    decide (0 < t ∧ t < 1 ∧ 0 < u ∧ u < 1)

/-- Segment-intersection predicate `_lines_intersect` of
`experiment1_TEST_VERSION.py`: identical solver, but the tightened open
interval `(0.01, 0.99)` for both parameters. -/
def lines_intersect_tight (l1 l2 : Seg) : Bool :=
  let denom := segDenom l1 l2
  if denom = 0 then false
  else
    let t := segTNum l1 l2 / denom
    let u := segUNum l1 l2 / denom
    decide ((1 / 100 : ℚ) < t ∧ t < 99 / 100 ∧ (1 / 100 : ℚ) < u ∧ u < 99 / 100)

/-- Squared form of `_point_to_segment_distance`: project the point onto the
supporting line, clamp the parameter to `[0,1]`, and return the squared
Euclidean distance to the clamped point (the source returns the square
root; every use compares it with a positive threshold, which is equivalent
to comparing this square with the squared threshold).  Degenerate segments
fall back to the squared point-to-point distance, as in the source. -/
def point_to_segment_distance_sq (p a b : Pt) : ℚ :=
  let px : ℚ := p.1
  let py : ℚ := p.2
  let x1 : ℚ := a.1
  let y1 : ℚ := a.2
  let dx : ℚ := (b.1 : ℚ) - a.1
  let dy : ℚ := (b.2 : ℚ) - a.2
  if dx = 0 ∧ dy = 0 then (px - x1) ^ 2 + (py - y1) ^ 2
  else
    let t := max 0 (min 1 (((px - x1) * dx + (py - y1) * dy) / (dx * dx + dy * dy)))
    (px - (x1 + t * dx)) ^ 2 + (py - (y1 + t * dy)) ^ 2

/-- Model of `random.randint lo hi`: the oracle supplies a natural number
`n` and the draw is `lo + n % (hi - lo + 1)`, which is always inside
`[lo, hi]` and reaches every value of that range (as the library call
does). -/
def randint (lo hi : ℤ) (n : ℕ) : ℤ := lo + (n % (hi - lo + 1).toNat : ℕ)

/-- Validity test of one dot candidate inside `_generate_dots`: the
candidate is rejected iff some already placed dot is closer than
`MIN_DOT_DISTANCE` (squared form of the `math.sqrt` comparison). -/
def validDot (dots : List Pt) (q : Pt) : Bool :=
  dots.all fun d => decide (¬ dotDistSq q d < MIN_DOT_DISTANCE ^ 2)

/-- Inner `while attempts < max_attempts` loop of `_generate_dots`: draw a
candidate from the boundary-adjusted rectangle, accept it if it keeps
`MIN_DOT_DISTANCE` from every placed dot, otherwise redraw; `none` models
the exhaustion of the 10000-attempt budget.  `dc` is the oracle stream
behind the two `random.randint` calls and `pos` the next stream index. -/
def placeDot (dc : ℕ → ℕ × ℕ) (dots : List Pt) : ℕ → ℕ → Option (Pt × ℕ)
  | 0, _ => none
  | b + 1, pos =>
    let c := dc pos
    let q : Pt :=
      (randint (-PATTERN_WIDTH / 2 + MIN_DOT_BOUNDARY_DISTANCE)
        (PATTERN_WIDTH / 2 - MIN_DOT_BOUNDARY_DISTANCE) c.1,
       randint (-PATTERN_HEIGHT / 2 + MIN_DOT_BOUNDARY_DISTANCE)
        (PATTERN_HEIGHT / 2 - MIN_DOT_BOUNDARY_DISTANCE) c.2)
    if validDot dots q then some (q, pos + 1) else placeDot dc dots b (pos + 1)

/-- Method `_generate_dots` of `experiment1_connectedness.py` (the same
algorithm as `generate_dots` of `step2_line_generation.py`): place the
requested number of dots sequentially, each with a 10000-attempt budget,
raising `RuntimeError` (modelled as `Except.error`) when a budget is
exhausted.  Returns the dots together with the next oracle index. -/
def generate_dots (dc : ℕ → ℕ × ℕ) : ℕ → List Pt → ℕ → Except String (List Pt × ℕ)
  | 0, dots, pos => .ok (dots, pos)
  | n + 1, dots, pos =>
    match placeDot dc dots 10000 pos with
    | some (q, pos') => generate_dots dc n (dots ++ [q]) pos'
    | none => .error "Could not place dot"

/-- One oracle draw behind a free-line candidate of `_generate_free_lines`:
raw `randint` values for the start point, and the displacement vector
`(int (length * cos angle), int (length * sin angle))` abstracted as an
arbitrary integer vector supplied by the oracle. -/
structure FreeCand where
  sx : ℕ
  sy : ℕ
  dx : ℤ
  dy : ℤ
deriving Repr, DecidableEq, Inhabited

/-- Candidate segment computed from one oracle draw, with the start point
ranges `[-W/2+20, W/2-20]` and `[-H/2+20, H/2-20]` of
`_generate_free_lines`. -/
def freeCandSeg (c : FreeCand) : Seg :=
  let x1 := randint (-PATTERN_WIDTH / 2 + 20) (PATTERN_WIDTH / 2 - 20) c.sx
  let y1 := randint (-PATTERN_HEIGHT / 2 + 20) (PATTERN_HEIGHT / 2 - 20) c.sy
  ((x1, y1), (x1 + c.dx, y1 + c.dy))

/-- Endpoint rejection test of `_generate_free_lines`:
`abs(x2) > PATTERN_WIDTH // 2 - 10 or abs(y2) > PATTERN_HEIGHT // 2 - 10`. -/
def freeEndpointOut (s : Seg) : Bool :=
  decide (PATTERN_WIDTH / 2 - 10 < |s.2.1| ∨ PATTERN_HEIGHT / 2 - 10 < |s.2.2|)

/-- Helper `_line_crosses_others`: does the new line intersect any of the
given lines? -/
def line_crosses_others (s : Seg) (ls : List Seg) : Bool :=
  ls.any fun l => lines_intersect s l

/-- Dot-clearance rejection test of `_generate_free_lines` in
`experiment1_connectedness.py`: the candidate is too close iff some dot is
nearer than `MIN_LINE_DOT_DISTANCE * 0.8` to the segment (squared form). -/
def freeTooCloseToDots (dots : List Pt) (s : Seg) : Bool :=
  dots.any fun d =>
    decide (point_to_segment_distance_sq d s.1 s.2 < (MIN_LINE_DOT_DISTANCE * (4 / 5)) ^ 2)

/-- Inner `for attempt in range(2000)` loop of `_generate_free_lines`: pull
candidates from the oracle until one passes the boundary, crossing, and
clearance checks; `none` models exhausting the 2000-attempt budget (the
line is then silently skipped by the caller). -/
def tryPlaceFree (fc : ℕ → FreeCand) (dots : List Pt) (acc : List Seg) :
    ℕ → ℕ → Option Seg × ℕ
  | 0, pos => (none, pos)
  | b + 1, pos =>
    let s := freeCandSeg (fc pos)
    if freeEndpointOut s then tryPlaceFree fc dots acc b (pos + 1)
    else if line_crosses_others s acc then tryPlaceFree fc dots acc b (pos + 1)
    else if freeTooCloseToDots dots s then tryPlaceFree fc dots acc b (pos + 1)
    else (some s, pos + 1)

/-- Method `_generate_free_lines` of `experiment1_connectedness.py`: place
up to `n` free lines, each with a 2000-attempt budget, checking candidates
only against the lines accumulated *within this call* (the local `lines`
list of the source starts empty); a line whose budget is exhausted is
skipped without error. -/
def generate_free_lines (fc : ℕ → FreeCand) (dots : List Pt) :
    ℕ → List Seg → ℕ → List Seg × ℕ
  | 0, acc, pos => (acc, pos)
  | n + 1, acc, pos =>
    match tryPlaceFree fc dots acc 2000 pos with
    | (some s, pos') => generate_free_lines fc dots n (acc ++ [s]) pos'
    | (none, pos') => generate_free_lines fc dots n acc pos'

/-- Method `_line_too_close_to_other_dots`: a connecting line is rejected
iff some dot other than its two endpoint dots is nearer than
`MIN_LINE_DOT_DISTANCE` to the segment (squared form). -/
def line_too_close_to_other_dots (dots : List Pt) (s : Seg) (i1 i2 : ℕ) : Bool :=
  dots.enum.any fun p =>
    decide (p.1 ≠ i1 ∧ p.1 ≠ i2 ∧
      point_to_segment_distance_sq p.2 s.1 s.2 < MIN_LINE_DOT_DISTANCE ^ 2)

/-- Inner `for idx2 in available_dots[1:]` scan of
`_generate_connecting_lines`: return the first partner index whose segment
to `dots[i1]` has length in `[MIN_LINE_LENGTH, MAX_LINE_LENGTH]`, crosses
none of the connecting lines placed so far, and keeps
`MIN_LINE_DOT_DISTANCE` from every non-endpoint dot. -/
def findPartner (dots : List Pt) (lines : List Seg) (i1 : ℕ) : List ℕ → Option ℕ
  | [] => none
  | i2 :: rest =>
    let s : Seg := (dots.getD i1 (0, 0), dots.getD i2 (0, 0))
    if MIN_LINE_LENGTH ^ 2 ≤ segLenSq s ∧ segLenSq s ≤ MAX_LINE_LENGTH ^ 2 then
      if line_crosses_others s lines then findPartner dots lines i1 rest
      else if line_too_close_to_other_dots dots s i1 i2 then findPartner dots lines i1 rest
      else some i2
    else findPartner dots lines i1 rest

/-- Inner `for attempt in range(1000)` loop of `_generate_connecting_lines`:
fix the head of the available pool as one endpoint and scan the rest for a
partner; on failure rotate the pool (`pop(0)` then re-append unless the
index is already recorded in `connected_pairs`) and try again.  `none`
models both the exhausted budget and the pool shrinking below two. -/
def connAttempts (dots : List Pt) (lines : List Seg) (pairs : List (ℕ × ℕ)) :
    ℕ → List ℕ → Option (ℕ × ℕ × List ℕ)
  | 0, _ => none
  | b + 1, avail =>
    if avail.length < 2 then none
    else
      match avail with
      | [] => none
      | i1 :: rest =>
        match findPartner dots lines i1 rest with
        | some i2 => some (i1, i2, ((i1 :: rest).erase i1).erase i2)
        | none =>
          let avail' :=
            if i1 ∉ pairs.map Prod.fst ∧ i1 ∉ pairs.map Prod.snd
            then rest ++ [i1] else rest
          connAttempts dots lines pairs b avail'

/-- Outer `for _ in range(num_connections)` loop of
`_generate_connecting_lines` in `experiment1_connectedness.py`: on each
success record the segment and the index pair and drop both indices from
the pool; when no pair is found within the budget, `break` without error
(the achieved connection count may be below the request). -/
def connLoop (dots : List Pt) :
    ℕ → List ℕ → List Seg → List (ℕ × ℕ) → List Seg × List (ℕ × ℕ)
  | 0, _, lines, pairs => (lines, pairs)
  | k + 1, avail, lines, pairs =>
    if avail.length < 2 then (lines, pairs)
    else
      match connAttempts dots lines pairs 1000 avail with
      | some (i1, i2, avail') =>
        let s : Seg := (dots.getD i1 (0, 0), dots.getD i2 (0, 0))
        connLoop dots k avail' (lines ++ [s]) (pairs ++ [(i1, i2)])
      | none => (lines, pairs)

/-- Method `_generate_connecting_lines` of `experiment1_connectedness.py`;
`shuffled` is the result of `random.shuffle(list(range(len(dots))))`. -/
def generate_connecting_lines (dots : List Pt) (k : ℕ) (shuffled : List ℕ) :
    List Seg × List (ℕ × ℕ) :=
  connLoop dots k shuffled [] []

/-- Trailing `while len(lines) < NUM_LINES` loop of `_generate_lines`: keep
requesting the missing number of free lines until four lines exist.  The
source loop has no retry bound of its own; `fuel` counts the remaining
iterations the model is willing to unfold and `none` stands for the loop
still running (not for an exception — the loop cannot raise). -/
def fillLoop (fc : ℕ → FreeCand) (dots : List Pt) :
    ℕ → List Seg → ℕ → Option (List Seg × ℕ)
  | 0, lines, pos =>
    if NUM_LINES ≤ lines.length then some (lines, pos) else none
  | f + 1, lines, pos =>
    if NUM_LINES ≤ lines.length then some (lines, pos)
    else
      let r := generate_free_lines fc dots (NUM_LINES - lines.length) [] pos
      fillLoop fc dots f (lines ++ r.1) r.2

/-- Method `_generate_lines` of `experiment1_connectedness.py`: with zero
connectedness generate four free lines, otherwise generate the connecting
lines first and fill with `NUM_LINES - len(connecting_lines)` free lines;
finally the `while` loop tops the list up to exactly `NUM_LINES`.  `pairs0`
is the incoming `self.connected_pairs` (left untouched on the
zero-connectedness path, as in the source). -/
def generate_lines (fc : ℕ → FreeCand) (shuffled : List ℕ) (dots : List Pt)
    (conn : ℕ) (pairs0 : List (ℕ × ℕ)) (fuel pos : ℕ) :
    Option (List Seg × List (ℕ × ℕ) × ℕ) :=
  if conn = 0 then
    let r := generate_free_lines fc dots NUM_LINES [] pos
    match fillLoop fc dots fuel r.1 r.2 with
    | some (ls, pos') => some (ls, pairs0, pos')
    | none => none
  else
    let c := generate_connecting_lines dots conn shuffled
    let nf := NUM_LINES - c.1.length
    let r :=
      if 0 < nf then
        let g := generate_free_lines fc dots nf [] pos
        (c.1 ++ g.1, g.2)
      else (c.1, pos)
    match fillLoop fc dots fuel r.1 r.2 with
    | some (ls, pos') => some (ls, c.2, pos')
    | none => none

/-- Class `DotPattern` of `experiment1_connectedness.py`: requested dot
count, connectedness level, family identity, and the generated dots, lines
and connected index pairs. -/
structure DotPattern where
  num_dots : ℕ
  connectedness : ℕ
  pattern_id : ℕ
  dots : List Pt
  lines : List Seg
  connected_pairs : List (ℕ × ℕ)
deriving Repr, DecidableEq, Inhabited

/-- Randomness consumed by one `DotPattern.generate()` call: the
`randint` oracle behind dot placement, the result of the
`random.shuffle` inside `_generate_connecting_lines`, the free-line
candidate oracle, and the unfolding budget for the unbounded `while`
fill loop. -/
structure GenRand where
  dc : ℕ → ℕ × ℕ
  shuffled : List ℕ
  fc : ℕ → FreeCand
  fuel : ℕ

/-- Method `DotPattern.generate`: generate dots only when none were
provided, then generate the lines.  `Except.error` is the propagated
`RuntimeError` of dot placement; `Except.ok none` stands for the line
fill loop still running after `fuel` iterations. -/
def DotPattern.generate (p : DotPattern) (r : GenRand) :
    Except String (Option DotPattern) :=
  match (if p.dots.isEmpty then (generate_dots r.dc p.num_dots [] 0).map Prod.fst
         else .ok p.dots) with
  | .error e => .error e
  | .ok ds =>
    match generate_lines r.fc r.shuffled ds p.connectedness p.connected_pairs r.fuel 0 with
    | none => .ok none
    | some (ls, prs, _) =>
      .ok (some { p with dots := ds, lines := ls, connected_pairs := prs })

/-- Constructor call `DotPattern(num_dots, connectedness, pattern_id,
base_dots)` of the source: fields `lines` and `connected_pairs` start
empty, `dots` starts as the provided base dots (deep-copied by the caller)
or empty. -/
def mkPattern (n conn pid : ℕ) (base : Option (List Pt)) : DotPattern :=
  { num_dots := n, connectedness := conn, pattern_id := pid,
    dots := base.getD [], lines := [], connected_pairs := [] }

/-- One iteration of the test-pattern retry body of `generate_all_patterns`
(lines 441-461 of `experiment1_connectedness.py`): generate the base
pattern with zero connections, then the one- and two-connection variants on
a copy of the base dots; any `RuntimeError` aborts the whole attempt.
`Except.ok none` again stands for a generation that is still running. -/
def buildFamilyAttempt (n pid : ℕ) (r0 r1 r2 : GenRand) :
    Except String (Option (DotPattern × DotPattern × DotPattern)) :=
  match (mkPattern n 0 pid none).generate r0 with
  | .error e => .error e
  | .ok none => .ok none
  | .ok (some base) =>
    match (mkPattern n 1 pid (some base.dots)).generate r1 with
    | .error e => .error e
    | .ok none => .ok none
    | .ok (some p1) =>
      match (mkPattern n 2 pid (some base.dots)).generate r2 with
      | .error e => .error e
      | .ok none => .ok none
      | .ok (some p2) => .ok (some (base, p1, p2))

/-- Retry loop `for retry in range(max_retries)` of `generate_all_patterns`:
re-run the whole attempt on a fresh randomness bundle after a
`RuntimeError`, and re-raise the error of the last allowed retry.  `k` is
the current retry index and the second argument the number of retries
left (10 at the call site). -/
def familyRetry (n pid : ℕ) (rs : ℕ → GenRand × GenRand × GenRand) :
    ℕ → ℕ → Except String (Option (DotPattern × DotPattern × DotPattern))
  | _, 0 => .error "Failed to generate pattern"
  | k, rem + 1 =>
    match buildFamilyAttempt n pid (rs k).1 (rs k).2.1 (rs k).2.2 with
    | .ok v => .ok v
    | .error e => if rem = 0 then .error e else familyRetry n pid rs (k + 1) rem

/-- The three per-connectedness pattern pools
`test_patterns_by_connectivity` of `generate_all_patterns`. -/
structure Pools where
  c0 : List DotPattern
  c1 : List DotPattern
  c2 : List DotPattern
deriving Repr, DecidableEq, Inhabited

/-- One `(num_dots, rep)` cell of the test-pattern generation of
`generate_all_patterns`: run the 10-retry loop and append the three
variants to the pools only when all three succeeded; an error leaves the
pools untouched and propagates. -/
def generateFamilyCell (n pid : ℕ) (rs : ℕ → GenRand × GenRand × GenRand)
    (pools : Pools) : Except String (Option Pools) :=
  match familyRetry n pid rs 0 10 with
  | .error e => .error e
  | .ok none => .ok none
  | .ok (some (b, p1, p2)) =>
    .ok (some { c0 := pools.c0 ++ [b], c1 := pools.c1 ++ [p1], c2 := pools.c2 ++ [p2] })

/-- One trial record built by `create_trial_list`. -/
structure Trial where
  block : ℕ
  half : ℕ
  ref : DotPattern
  test : DotPattern
  test_on_left : Bool
  num_dots : ℕ
  connectedness : ℕ
deriving Repr, DecidableEq, Inhabited

/-- The dictionary appended by `create_trial_list` for one trial. -/
def mkTrial (b h : ℕ) (rp tp : DotPattern) (tol : Bool) : Trial :=
  ⟨b, h, rp, tp, tol, tp.num_dots, tp.connectedness⟩

/-- Function `create_trial_list` of `experiment1_connectedness.py`:
`indices` is the shuffled list of pool indices, `flips` the oracle behind
the per-trial `random.choice([True, False])` of the first half.  The first
half walks the shuffled indices; the second half walks them again, looks
the original trial up via `trials[indices.index(idx)]`, and negates its
`test_on_left` flag. -/
def create_trial_list (refs tests : List DotPattern) (indices : List ℕ)
    (flips : ℕ → Bool) (blockNum : ℕ) : List Trial :=
  let firstHalf := indices.enum.map fun ji =>
    mkTrial blockNum 1 (refs.getD ji.2 default) (tests.getD ji.2 default) (flips ji.1)
  let secondHalf := indices.map fun idx =>
    let original := firstHalf.getD (indices.indexOf idx) default
    mkTrial blockNum 2 (refs.getD idx default) (tests.getD idx default)
      (!original.test_on_left)
  firstHalf ++ secondHalf

/-- Finite oracle stream for the dot-placement draws of a concrete run. -/
def dcOf (l : List (ℕ × ℕ)) : ℕ → ℕ × ℕ := fun i => l.getD i (0, 0)

/-- Finite oracle stream for the free-line draws of a concrete run. -/
def fcOf (l : List FreeCand) : ℕ → FreeCand := fun i => l.getD i ⟨0, 0, 0, 0⟩

/-! ## Helper lemmas -/

theorem dotDistSq_comm (a b : Pt) : dotDistSq a b = dotDistSq b a := by
  unfold dotDistSq; ring

theorem lines_intersect_false_of_param_outside (l1 l2 : Seg)
    (h : segTNum l1 l2 / segDenom l1 l2 ≤ 0 ∨ 1 ≤ segTNum l1 l2 / segDenom l1 l2 ∨
      segUNum l1 l2 / segDenom l1 l2 ≤ 0 ∨ 1 ≤ segUNum l1 l2 / segDenom l1 l2) :
    lines_intersect l1 l2 = false ∧ lines_intersect_tight l1 l2 = false := by
  unfold lines_intersect lines_intersect_tight
  dsimp only
  split_ifs with hd
  · exact ⟨rfl, rfl⟩
  · constructor
    · rw [decide_eq_false_iff_not]
      rintro ⟨h1, h2, h3, h4⟩
      rcases h with h | h | h | h <;> linarith
    · rw [decide_eq_false_iff_not]
      rintro ⟨h1, h2, h3, h4⟩
      rcases h with h | h | h | h <;> linarith

theorem segTNum_share_head_head (a b d : Pt) : segTNum (a, b) (a, d) = 0 := by
  unfold segTNum; ring

theorem segTNum_share_head_last (a b c : Pt) : segTNum (a, b) (c, a) = 0 := by
  unfold segTNum; ring

theorem segUNum_share_last_head (a b d : Pt) : segUNum (a, b) (b, d) = 0 := by
  unfold segUNum; ring

theorem segTNum_share_last_last (a b c : Pt) :
    segTNum (a, b) (c, b) = segDenom (a, b) (c, b) := by
  unfold segTNum segDenom; ring

/-- Boundary-adjusted rectangle of the dot sampler:
`[-W/2+B, W/2-B] x [-H/2+B, H/2-B]`. -/
abbrev inRect (q : Pt) : Prop :=
  -PATTERN_WIDTH / 2 + MIN_DOT_BOUNDARY_DISTANCE ≤ q.1 ∧
    q.1 ≤ PATTERN_WIDTH / 2 - MIN_DOT_BOUNDARY_DISTANCE ∧
    -PATTERN_HEIGHT / 2 + MIN_DOT_BOUNDARY_DISTANCE ≤ q.2 ∧
    q.2 ≤ PATTERN_HEIGHT / 2 - MIN_DOT_BOUNDARY_DISTANCE

/-- Two dots keep the minimum spacing (squared form of
`distance >= MIN_DOT_DISTANCE`). -/
abbrev dotsFarApart (a b : Pt) : Prop := MIN_DOT_DISTANCE ^ 2 ≤ dotDistSq a b

theorem randint_mem (lo hi : ℤ) (n : ℕ) (h : lo ≤ hi) :
    lo ≤ randint lo hi n ∧ randint lo hi n ≤ hi := by
  unfold randint
  have h1 : (n % (hi - lo + 1).toNat) < (hi - lo + 1).toNat := Nat.mod_lt _ (by omega)
  omega

theorem validDot_iff (dots : List Pt) (q : Pt) :
    validDot dots q = true ↔ ∀ d ∈ dots, MIN_DOT_DISTANCE ^ 2 ≤ dotDistSq q d := by
  simp [validDot, not_lt]

theorem placeDot_some (dc : ℕ → ℕ × ℕ) (dots : List Pt) :
    ∀ (b pos : ℕ) (q : Pt) (pos' : ℕ), placeDot dc dots b pos = some (q, pos') →
      validDot dots q = true ∧ inRect q := by
  intro b
  induction b with
  | zero =>
    intro pos q pos' h
    exact absurd h (by simp [placeDot])
  | succ b ih =>
    intro pos q pos' h
    rw [placeDot] at h
    split_ifs at h with hv
    · obtain ⟨q1, q2⟩ := q
      obtain ⟨⟨h1, h2⟩, h3⟩ : (_ = q1 ∧ _ = q2) ∧ pos + 1 = pos' := by
        simpa [Prod.ext_iff] using h
      subst h1
      subst h2
      refine ⟨hv, ?_, ?_, ?_, ?_⟩
      · exact (randint_mem _ _ _ (by decide)).1
      · exact (randint_mem _ _ _ (by decide)).2
      · exact (randint_mem _ _ _ (by decide)).1
      · exact (randint_mem _ _ _ (by decide)).2
    · exact ih (pos + 1) q pos' h

theorem generate_dots_spec (dc : ℕ → ℕ × ℕ) :
    ∀ (n : ℕ) (dots : List Pt) (pos : ℕ) (ds : List Pt) (pos' : ℕ),
      generate_dots dc n dots pos = .ok (ds, pos') →
      ds.length = dots.length + n ∧
      (∀ q ∈ ds, q ∈ dots ∨ inRect q) ∧
      (List.Pairwise dotsFarApart dots → List.Pairwise dotsFarApart ds) := by
  intro n
  induction n with
  | zero =>
    intro dots pos ds pos' h
    simp only [generate_dots, Except.ok.injEq, Prod.mk.injEq] at h
    obtain ⟨rfl, rfl⟩ := h
    exact ⟨by simp, fun q hq => Or.inl hq, fun h => h⟩
  | succ n ih =>
    intro dots pos ds pos' h
    rw [generate_dots] at h
    rcases hp : placeDot dc dots 10000 pos with _ | ⟨q0, pos1⟩ <;> rw [hp] at h
    · exact absurd h (by simp)
    · obtain ⟨hvalid, hrect⟩ := placeDot_some dc dots 10000 pos q0 pos1 hp
      obtain ⟨hlen, hmem, hpw⟩ := ih (dots ++ [q0]) pos1 ds pos' h
      refine ⟨by simp at hlen; omega, ?_, ?_⟩
      · intro q hq
        rcases hmem q hq with hm | hin
        · rcases List.mem_append.1 hm with hm | hm
          · exact Or.inl hm
          · exact Or.inr (by rwa [List.mem_singleton.1 hm])
        · exact Or.inr hin
      · intro hp0
        apply hpw
        rw [List.pairwise_append]
        refine ⟨hp0, by simp, ?_⟩
        intro a ha b hb
        rw [List.mem_singleton.1 hb]
        have := (validDot_iff dots q0).1 hvalid a ha
        unfold dotsFarApart
        rwa [dotDistSq_comm]

theorem generate_with_dots_provided (p : DotPattern) (r : GenRand) (q : DotPattern)
    (hne : p.dots ≠ []) (h : p.generate r = .ok (some q)) :
    q.dots = p.dots ∧ q.num_dots = p.num_dots ∧ q.connectedness = p.connectedness ∧
      q.pattern_id = p.pattern_id := by
  unfold DotPattern.generate at h
  rw [if_neg (by simp [hne])] at h
  dsimp only at h
  split at h
  · exact absurd h (by simp)
  · simp only [Except.ok.injEq, Option.some.injEq] at h
    subst h
    exact ⟨rfl, rfl, rfl, rfl⟩

/-! ## Claim C6 -/

/-- C6: whenever the dot sampler returns (models `_generate_dots` of
`experiment1_connectedness.py` run on the empty accumulator), it returns
exactly the requested number of points, every pair of returned points is at
squared distance at least `MIN_DOT_DISTANCE ^ 2` (equivalently, Euclidean
distance at least `MIN_DOT_DISTANCE`), and every point lies in the
boundary-adjusted rectangle.  The only other outcome of the total function
`generate_dots` is the `Except.error` raised when some dot exhausts its
10000-attempt budget, so the sampler never hands back fewer than `n`
points and always terminates. -/
theorem sampleDots_spec (dc : ℕ → ℕ × ℕ) (n : ℕ) (ds : List Pt) (pos' : ℕ)
    (h : generate_dots dc n [] 0 = .ok (ds, pos')) :
    ds.length = n ∧ List.Pairwise dotsFarApart ds ∧ ∀ q ∈ ds, inRect q := by
  obtain ⟨hlen, hmem, hpw⟩ := generate_dots_spec dc n [] 0 ds pos' h
  refine ⟨by simpa using hlen, hpw (by simp), ?_⟩
  intro q hq
  rcases hmem q hq with hm | hin
  · exact absurd hm (List.not_mem_nil q)
  · exact hin

/-- Witness for C6: a concrete two-dot sampling run. -/
theorem sampleDots_spec_witness :
    ([(-120, -160), (0, -160)] : List Pt).length = 2 ∧
      List.Pairwise dotsFarApart [(-120, -160), (0, -160)] ∧
      ∀ q ∈ ([(-120, -160), (0, -160)] : List Pt), inRect q :=
  sampleDots_spec (dcOf [(0, 0), (120, 0)]) 2 [(-120, -160), (0, -160)] 2 rfl

/-! ## Claim C7 -/

/-- C7: for every pair of line segments that touch exactly at a shared
endpoint, the segment-intersection predicate returns false, both for the
variant with the open interval `(0,1)`
(`experiment1_connectedness._lines_intersect`) and for the variant with the
tightened interval `(0.01, 0.99)`
(`experiment1_TEST_VERSION._lines_intersect`); the shared endpoint forces
the intersection parameter of one of the segments to be exactly `0` or `1`,
outside both open intervals, whether or not the segments are parallel. -/
theorem endpoint_touch_is_not_crossing (a b c d : Pt)
    (h : a = c ∨ a = d ∨ b = c ∨ b = d) :
    lines_intersect (a, b) (c, d) = false ∧
      lines_intersect_tight (a, b) (c, d) = false := by
  apply lines_intersect_false_of_param_outside
  rcases h with h | h | h | h
  · subst h
    left
    rw [segTNum_share_head_head, zero_div]
  · subst h
    left
    rw [segTNum_share_head_last, zero_div]
  · subst h
    right; right; left
    rw [segUNum_share_last_head, zero_div]
  · subst h
    rw [segTNum_share_last_last]
    rcases eq_or_ne (segDenom (a, b) (c, b)) 0 with hd | hd
    · left
      rw [hd, div_zero]
    · right; left
      rw [div_self hd]

/-- Witness for C7 at a concrete shared endpoint. -/
theorem endpoint_touch_is_not_crossing_witness :
    lines_intersect ((0, 0), (10, 0)) ((0, 0), (0, 10)) = false ∧
      lines_intersect_tight ((0, 0), (10, 0)) ((0, 0), (0, 10)) = false :=
  endpoint_touch_is_not_crossing (0, 0) (10, 0) (0, 0) (0, 10) (Or.inl rfl)

/-! ## Claim C9 -/

/-- Concrete pattern with a provided one-dot layout for the C9 witness. -/
def c9Pattern : DotPattern := ⟨1, 0, 0, [(0, 0)], [], []⟩

/-- Concrete randomness bundle for the C9 witness run. -/
def c9Rand : GenRand :=
  ⟨dcOf [], [0], fcOf [⟨20, 60, 0, 40⟩, ⟨20, 220, 0, 40⟩, ⟨220, 220, 0, 40⟩, ⟨220, 60, 0, 40⟩], 1⟩

/-- Result of the C9 witness run. -/
def c9Result : DotPattern :=
  ⟨1, 0, 0, [(0, 0)],
    [((-100, -100), (-100, -60)), ((-100, 60), (-100, 100)),
     ((100, 60), (100, 100)), ((100, -100), (100, -60))], []⟩

/-- C9: when a `DotPattern` is constructed with a non-empty `base_dots`
sequence, `generate()` leaves the `dots` attribute unchanged element for
element and also preserves `num_dots`, `connectedness` and `pattern_id`;
only `lines` and `connected_pairs` are (re)written.  This is what lets all
family members built from one copied layout share identical dots. -/
theorem generate_never_mutates_dots (p : DotPattern) (r : GenRand) (q : DotPattern)
    (hne : p.dots ≠ []) (h : p.generate r = .ok (some q)) :
    q.dots = p.dots ∧ q.num_dots = p.num_dots ∧ q.connectedness = p.connectedness ∧
      q.pattern_id = p.pattern_id :=
  generate_with_dots_provided p r q hne h

/-- Witness for C9: a concrete generation run on a provided layout. -/
theorem generate_never_mutates_dots_witness :
    c9Result.dots = c9Pattern.dots ∧ c9Result.num_dots = c9Pattern.num_dots ∧
      c9Result.connectedness = c9Pattern.connectedness ∧
      c9Result.pattern_id = c9Pattern.pattern_id :=
  generate_never_mutates_dots c9Pattern c9Rand c9Result (by decide)
    (by with_unfolding_all rfl)

theorem generate_free_lines_length (fc : ℕ → FreeCand) (dots : List Pt) :
    ∀ (n : ℕ) (acc : List Seg) (pos : ℕ),
      (generate_free_lines fc dots n acc pos).1.length ≤ acc.length + n := by
  intro n
  induction n with
  | zero => intro acc pos; simp [generate_free_lines]
  | succ n ih =>
    intro acc pos
    rw [generate_free_lines]
    split
    · rename_i s pos' hs
      have := ih (acc ++ [s]) pos'
      simp at this
      omega
    · rename_i pos' hs
      have := ih acc pos'
      omega

theorem fillLoop_length (fc : ℕ → FreeCand) (dots : List Pt) :
    ∀ (fuel : ℕ) (lines : List Seg) (pos : ℕ) (res : List Seg × ℕ),
      fillLoop fc dots fuel lines pos = some res →
      lines.length ≤ NUM_LINES → res.1.length = NUM_LINES := by
  intro fuel
  induction fuel with
  | zero =>
    intro lines pos res h hle
    rw [fillLoop] at h
    split_ifs at h with h4
    · obtain rfl : (lines, pos) = res := by simpa using h
      show lines.length = NUM_LINES
      omega
  | succ f ih =>
    intro lines pos res h hle
    rw [fillLoop] at h
    split_ifs at h with h4
    · obtain rfl : (lines, pos) = res := by simpa using h
      show lines.length = NUM_LINES
      omega
    · have hfl := generate_free_lines_length fc dots (NUM_LINES - lines.length) [] pos
      simp only [List.length_nil] at hfl
      refine ih _ _ res h ?_
      simp only [List.length_append]
      omega

theorem connLoop_length (dots : List Pt) :
    ∀ (k : ℕ) (avail : List ℕ) (lines : List Seg) (pairs : List (ℕ × ℕ)),
      (connLoop dots k avail lines pairs).1.length ≤ lines.length + k ∧
      (connLoop dots k avail lines pairs).1.length + pairs.length =
        (connLoop dots k avail lines pairs).2.length + lines.length := by
  intro k
  induction k with
  | zero =>
    intro avail lines pairs
    rw [connLoop]
    exact ⟨Nat.le_add_right _ _, Nat.add_comm _ _⟩
  | succ k ih =>
    intro avail lines pairs
    rw [connLoop]
    dsimp only
    split_ifs with hlt
    · exact ⟨Nat.le_add_right _ _, Nat.add_comm _ _⟩
    · split
      · rename_i i1 i2 avail' hsome
        have := ih avail' (lines ++ [(dots.getD i1 (0, 0), dots.getD i2 (0, 0))])
          (pairs ++ [(i1, i2)])
        simp only [List.length_append, List.length_singleton] at this
        omega
      · exact ⟨Nat.le_add_right _ _, Nat.add_comm _ _⟩

theorem generate_lines_length (fc : ℕ → FreeCand) (shuffled : List ℕ) (dots : List Pt)
    (conn : ℕ) (pairs0 : List (ℕ × ℕ)) (fuel pos : ℕ) (res : List Seg × List (ℕ × ℕ) × ℕ)
    (hconn : conn ≤ NUM_LINES)
    (h : generate_lines fc shuffled dots conn pairs0 fuel pos = some res) :
    res.1.length = NUM_LINES := by
  unfold generate_lines at h
  split_ifs at h with h0
  · dsimp only at h
    split at h
    · rename_i ls pos' hf
      obtain rfl : (ls, pairs0, pos') = res := by simpa using h
      exact fillLoop_length fc dots fuel _ _ (ls, pos') hf
        (by simpa using generate_free_lines_length fc dots NUM_LINES [] pos)
    · exact absurd h (by simp)
  · have hc := connLoop_length dots conn shuffled [] []
    simp only [List.length_nil, Nat.zero_add] at hc
    dsimp only at h
    split at h
    · rename_i ls pos' hf
      obtain rfl : (ls, (generate_connecting_lines dots conn shuffled).2, pos') = res := by
        simpa using h
      refine fillLoop_length fc dots fuel _ _ (ls, pos') hf ?_
      split_ifs with hnf
      · have hg := generate_free_lines_length fc dots
          (NUM_LINES - (generate_connecting_lines dots conn shuffled).1.length) [] pos
        simp only [List.length_nil, List.length_append] at hg ⊢
        unfold generate_connecting_lines at hg ⊢
        omega
      · unfold generate_connecting_lines at hnf ⊢
        show (connLoop dots conn shuffled [] []).1.length ≤ NUM_LINES
        omega
    · exact absurd h (by simp)

/-! ## Claim C4 -/

/-- C4: whenever `_generate_lines` of `experiment1_connectedness.py`
returns (for any connectedness request of at most `NUM_LINES`, which covers
the levels 0, 1, 2 used by the program), the returned `lines` sequence has
length exactly `NUM_LINES = 4`: if connecting-line generation
under-delivers, the free-line budget `NUM_LINES - len(connecting_lines)`
and the trailing `while len(lines) < NUM_LINES` loop fill the remainder. -/
theorem pattern_has_exactly_four_lines (fc : ℕ → FreeCand) (shuffled : List ℕ)
    (dots : List Pt) (conn : ℕ) (pairs0 : List (ℕ × ℕ)) (fuel pos : ℕ)
    (res : List Seg × List (ℕ × ℕ) × ℕ) (hconn : conn ≤ NUM_LINES)
    (h : generate_lines fc shuffled dots conn pairs0 fuel pos = some res) :
    res.1.length = NUM_LINES :=
  generate_lines_length fc shuffled dots conn pairs0 fuel pos res hconn h

/-- Free-line candidate stream of the C4 witness run. -/
def c4Fc : ℕ → FreeCand :=
  fcOf [⟨40, 60, 0, 40⟩, ⟨40, 230, 0, 40⟩, ⟨200, 230, 0, 40⟩, ⟨200, 60, 0, 40⟩]

/-- Witness for C4: a concrete `_generate_lines` run delivers four lines. -/
theorem pattern_has_exactly_four_lines_witness :
    (([((-80, -100), (-80, -60)), ((-80, 70), (-80, 110)),
       ((80, 70), (80, 110)), ((80, -100), (80, -60))] : List Seg),
      ([] : List (ℕ × ℕ)), 4).1.length = NUM_LINES :=
  pattern_has_exactly_four_lines c4Fc [0] [(0, 0)] 0 [] 1 0 _ (by decide)
    (by with_unfolding_all rfl)

/-! ## Claim C10 -/

/-- C10: in `experiment1_connectedness.py`, every `Except.error` of
`DotPattern.generate` originates in dot placement: an error forces
`self.dots` to have been empty and `_generate_dots` to have raised, because
the line-layout phase of this file contains no raise (a free line that
exhausts its 2000-attempt budget is silently skipped and the unbounded fill
loop keeps retrying).  Consequently a caller observes either a
dot-placement failure or a returned pattern with exactly 4 lines. -/
theorem generate_failures_are_dot_failures (p : DotPattern) (r : GenRand) :
    (∀ e, p.generate r = .error e →
      p.dots = [] ∧ generate_dots r.dc p.num_dots [] 0 = .error e) ∧
    (p.connectedness ≤ NUM_LINES → ∀ q, p.generate r = .ok (some q) →
      q.lines.length = NUM_LINES) := by
  constructor
  · intro e h
    unfold DotPattern.generate at h
    split_ifs at h with hemp
    · refine ⟨List.isEmpty_iff.mp hemp, ?_⟩
      rcases hgd : generate_dots r.dc p.num_dots [] 0 with e' | v <;>
        rw [hgd] at h <;> dsimp only [Except.map] at h
      · obtain rfl : e' = e := by simpa using h
        rfl
      · split at h
        · exact absurd h (by simp)
        · exact absurd h (by simp)
    · dsimp only at h
      split at h
      · exact absurd h (by simp)
      · exact absurd h (by simp)
  · intro hconn q h
    unfold DotPattern.generate at h
    split_ifs at h with hemp
    · rcases hgd : generate_dots r.dc p.num_dots [] 0 with e' | ⟨ds, pos⟩ <;>
        rw [hgd] at h <;> dsimp only [Except.map] at h
      · exact absurd h (by simp)
      · split at h
        · exact absurd h (by simp)
        · rename_i ls prs pos2 hgl
          obtain rfl : _ = q := by simpa using h
          simpa using generate_lines_length r.fc r.shuffled ds p.connectedness
            p.connected_pairs r.fuel 0 (ls, prs, pos2) hconn hgl
    · dsimp only at h
      split at h
      · exact absurd h (by simp)
      · rename_i ls prs pos2 hgl
        obtain rfl : _ = q := by simpa using h
        simpa using generate_lines_length r.fc r.shuffled p.dots p.connectedness
          p.connected_pairs r.fuel 0 (ls, prs, pos2) hconn hgl

/-- Pattern of the erroring C10 witness run: two dots requested, constant
dot oracle, so the second dot can never keep its spacing. -/
def c10ErrPattern : DotPattern := ⟨2, 0, 0, [], [], []⟩

/-- Randomness bundle of the erroring C10 witness run. -/
def c10ErrRand : GenRand := ⟨dcOf [], [], fcOf [], 0⟩

/-- Pattern of the succeeding C10 witness run. -/
def c10OkPattern : DotPattern := ⟨1, 0, 0, [(0, 0)], [], []⟩

/-- Randomness bundle of the succeeding C10 witness run. -/
def c10OkRand : GenRand :=
  ⟨dcOf [], [0], fcOf [⟨30, 60, 0, 40⟩, ⟨30, 230, 0, 40⟩, ⟨210, 230, 0, 40⟩, ⟨210, 60, 0, 40⟩], 1⟩

/-- Result of the succeeding C10 witness run. -/
def c10OkResult : DotPattern :=
  ⟨1, 0, 0, [(0, 0)],
    [((-90, -100), (-90, -60)), ((-90, 70), (-90, 110)),
     ((90, 70), (90, 110)), ((90, -100), (90, -60))], []⟩

theorem placeDot_const_none :
    ∀ (b pos : ℕ), placeDot (dcOf []) [(-120, -160)] b pos = none := by
  have hv : validDot [((-120 : ℤ), (-160 : ℤ))] (-120, -160) = false := by rfl
  intro b
  induction b with
  | zero => intro pos; rfl
  | succ b ih =>
    intro pos
    show (if validDot [((-120 : ℤ), (-160 : ℤ))] (-120, -160) = true
          then some ((((-120 : ℤ), (-160 : ℤ)) : Pt), pos + 1)
          else placeDot (dcOf []) [(-120, -160)] b (pos + 1)) = none
    rw [hv]
    simp only [Bool.false_eq_true, if_false]
    exact ih (pos + 1)

theorem generate_dots_succ (dc : ℕ → ℕ × ℕ) (n : ℕ) (dots : List Pt) (pos : ℕ) :
    generate_dots dc (n + 1) dots pos =
      match placeDot dc dots 10000 pos with
      | some (q, pos') => generate_dots dc n (dots ++ [q]) pos'
      | none => .error "Could not place dot" := rfl

theorem generate_dots_const_err :
    generate_dots (dcOf []) 2 [] 0 = .error "Could not place dot" := by
  have h1 : placeDot (dcOf []) [] 10000 0 = some ((-120, -160), 1) := by rfl
  have h2 : generate_dots (dcOf []) 1 [(-120, -160)] 1 = .error "Could not place dot" := by
    show generate_dots (dcOf []) (0 + 1) [(-120, -160)] 1 = _
    rw [generate_dots_succ, placeDot_const_none 10000 1]
  show generate_dots (dcOf []) (1 + 1) [] 0 = _
  rw [generate_dots_succ, h1]
  dsimp only
  simpa using h2

theorem generate_err_of_dots_err (p : DotPattern) (r : GenRand) (e : String)
    (hemp : p.dots = []) (hgd : generate_dots r.dc p.num_dots [] 0 = .error e) :
    p.generate r = .error e := by
  unfold DotPattern.generate
  rw [if_pos (by simp [hemp]), hgd]
  rfl

theorem c10_generate_err :
    c10ErrPattern.generate c10ErrRand = .error "Could not place dot" :=
  generate_err_of_dots_err c10ErrPattern c10ErrRand _ rfl generate_dots_const_err

/-- Witness for C10: one concrete run that errors out of dot placement and
one concrete run that returns a four-line pattern. -/
theorem generate_failures_are_dot_failures_witness :
    (c10ErrPattern.dots = [] ∧
      generate_dots c10ErrRand.dc c10ErrPattern.num_dots [] 0 =
        .error "Could not place dot") ∧
    c10OkResult.lines.length = NUM_LINES :=
  ⟨(generate_failures_are_dot_failures c10ErrPattern c10ErrRand).1 "Could not place dot"
      c10_generate_err,
   (generate_failures_are_dot_failures c10OkPattern c10OkRand).2 (by decide) c10OkResult
      (by with_unfolding_all rfl)⟩

theorem tryPlaceFree_some (fc : ℕ → FreeCand) (dots : List Pt) (acc : List Seg) :
    ∀ (b pos : ℕ) (s : Seg) (pos' : ℕ), tryPlaceFree fc dots acc b pos = (some s, pos') →
      freeEndpointOut s = false ∧ line_crosses_others s acc = false ∧
        freeTooCloseToDots dots s = false := by
  intro b
  induction b with
  | zero =>
    intro pos s pos' h
    exact absurd h (by simp [tryPlaceFree])
  | succ b ih =>
    intro pos s pos' h
    rw [tryPlaceFree] at h
    split_ifs at h with h1 h2 h3
    · exact ih _ _ _ h
    · exact ih _ _ _ h
    · exact ih _ _ _ h
    · obtain ⟨rfl, rfl⟩ : freeCandSeg (fc pos) = s ∧ pos + 1 = pos' := by
        simpa [Prod.ext_iff] using h
      simp only [Bool.not_eq_true] at h1 h2 h3
      exact ⟨h1, h2, h3⟩

theorem freeTooCloseToDots_false_iff (dots : List Pt) (s : Seg) :
    freeTooCloseToDots dots s = false ↔
      ∀ d ∈ dots,
        (MIN_LINE_DOT_DISTANCE * (4 / 5)) ^ 2 ≤ point_to_segment_distance_sq d s.1 s.2 := by
  simp [freeTooCloseToDots, not_lt]

theorem generate_free_lines_mem (fc : ℕ → FreeCand) (dots : List Pt) :
    ∀ (n : ℕ) (acc : List Seg) (pos : ℕ),
      ∀ s ∈ (generate_free_lines fc dots n acc pos).1,
        s ∈ acc ∨ freeTooCloseToDots dots s = false := by
  intro n
  induction n with
  | zero =>
    intro acc pos s hs
    exact Or.inl (by simpa [generate_free_lines] using hs)
  | succ n ih =>
    intro acc pos s hs
    rw [generate_free_lines] at hs
    split at hs
    · rename_i s0 pos' h0
      rcases ih (acc ++ [s0]) pos' s hs with hmem | hclear
      · rcases List.mem_append.1 hmem with hm | hm
        · exact Or.inl hm
        · right
          rw [List.mem_singleton.1 hm]
          exact (tryPlaceFree_some fc dots acc 2000 pos s0 pos' h0).2.2
      · exact Or.inr hclear
    · rename_i pos' h0
      exact ih acc pos' s hs

theorem findPartner_some (dots : List Pt) (lines : List Seg) (i1 : ℕ) :
    ∀ (cand : List ℕ) (i2 : ℕ), findPartner dots lines i1 cand = some i2 →
      i2 ∈ cand ∧
      MIN_LINE_LENGTH ^ 2 ≤ segLenSq (dots.getD i1 (0, 0), dots.getD i2 (0, 0)) ∧
      segLenSq (dots.getD i1 (0, 0), dots.getD i2 (0, 0)) ≤ MAX_LINE_LENGTH ^ 2 ∧
      line_crosses_others (dots.getD i1 (0, 0), dots.getD i2 (0, 0)) lines = false ∧
      line_too_close_to_other_dots dots (dots.getD i1 (0, 0), dots.getD i2 (0, 0)) i1 i2
        = false := by
  intro cand
  induction cand with
  | nil =>
    intro i2 h
    exact absurd h (by simp [findPartner])
  | cons j rest ih =>
    intro i2 h
    rw [findPartner] at h
    split_ifs at h with hd hc ht
    · obtain ⟨hm, hp⟩ := ih i2 h
      exact ⟨List.mem_cons_of_mem j hm, hp⟩
    · obtain ⟨hm, hp⟩ := ih i2 h
      exact ⟨List.mem_cons_of_mem j hm, hp⟩
    · obtain rfl : j = i2 := by simpa using h
      simp only [Bool.not_eq_true] at hc ht
      exact ⟨List.mem_cons_self j rest, hd.1, hd.2, hc, ht⟩
    · obtain ⟨hm, hp⟩ := ih i2 h
      exact ⟨List.mem_cons_of_mem j hm, hp⟩

theorem connAttempts_some (dots : List Pt) (lines : List Seg) (pairs : List (ℕ × ℕ)) :
    ∀ (b : ℕ) (avail : List ℕ) (i1 i2 : ℕ) (avail' : List ℕ),
      connAttempts dots lines pairs b avail = some (i1, i2, avail') →
      i1 ∈ avail ∧ i2 ∈ avail ∧ (∀ j ∈ avail', j ∈ avail) ∧
      MIN_LINE_LENGTH ^ 2 ≤ segLenSq (dots.getD i1 (0, 0), dots.getD i2 (0, 0)) ∧
      segLenSq (dots.getD i1 (0, 0), dots.getD i2 (0, 0)) ≤ MAX_LINE_LENGTH ^ 2 ∧
      line_crosses_others (dots.getD i1 (0, 0), dots.getD i2 (0, 0)) lines = false ∧
      line_too_close_to_other_dots dots (dots.getD i1 (0, 0), dots.getD i2 (0, 0)) i1 i2
        = false := by
  intro b
  induction b with
  | zero =>
    intro avail i1 i2 avail' h
    exact absurd h (by simp [connAttempts])
  | succ b ih =>
    intro avail i1 i2 avail' h
    rcases avail with _ | ⟨j1, rest⟩
    · exact absurd h (by simp [connAttempts])
    · have hsub1 : ∀ x, x ∈ rest ++ [j1] → x ∈ j1 :: rest := by
        intro x hx
        rcases List.mem_append.1 hx with hx | hx
        · exact List.mem_cons_of_mem _ hx
        · rw [List.mem_singleton.1 hx]
          exact List.mem_cons_self _ _
      rw [connAttempts] at h
      split_ifs at h with hlt hcond
      · dsimp only at h
        split at h
        · rename_i i2' hfp
          simp only [Option.some.injEq, Prod.mk.injEq] at h
          obtain ⟨rfl, rfl, rfl⟩ := h
          obtain ⟨hm, hp⟩ := findPartner_some dots lines j1 rest i2' hfp
          exact ⟨List.mem_cons_self _ _, List.mem_cons_of_mem _ hm,
            fun j hj => List.erase_subset _ _ (List.erase_subset _ _ hj), hp⟩
        · rename_i hfp
          obtain ⟨h1, h2, h3, hp⟩ := ih _ i1 i2 avail' h
          exact ⟨hsub1 _ h1, hsub1 _ h2, fun j hj => hsub1 _ (h3 j hj), hp⟩
      · dsimp only at h
        split at h
        · rename_i i2' hfp
          simp only [Option.some.injEq, Prod.mk.injEq] at h
          obtain ⟨rfl, rfl, rfl⟩ := h
          obtain ⟨hm, hp⟩ := findPartner_some dots lines j1 rest i2' hfp
          exact ⟨List.mem_cons_self _ _, List.mem_cons_of_mem _ hm,
            fun j hj => List.erase_subset _ _ (List.erase_subset _ _ hj), hp⟩
        · rename_i hfp
          obtain ⟨h1, h2, h3, hp⟩ := ih _ i1 i2 avail' h
          exact ⟨List.mem_cons_of_mem _ h1, List.mem_cons_of_mem _ h2,
            fun j hj => List.mem_cons_of_mem _ (h3 j hj), hp⟩

/-- Properties that `_generate_connecting_lines` establishes for each
recorded line/pair: the segment joins the two indexed dots, the indices are
in range, the squared length is within the allowed band, and every
non-endpoint dot keeps the clearance `MIN_LINE_DOT_DISTANCE`. -/
def connPairOK (dots : List Pt) (pr : Seg × (ℕ × ℕ)) : Prop :=
  pr.1 = (dots.getD pr.2.1 (0, 0), dots.getD pr.2.2 (0, 0)) ∧
  pr.2.1 < dots.length ∧ pr.2.2 < dots.length ∧
  MIN_LINE_LENGTH ^ 2 ≤ segLenSq pr.1 ∧ segLenSq pr.1 ≤ MAX_LINE_LENGTH ^ 2 ∧
  ∀ ip ∈ dots.enum, ip.1 ≠ pr.2.1 → ip.1 ≠ pr.2.2 →
    MIN_LINE_DOT_DISTANCE ^ 2 ≤ point_to_segment_distance_sq ip.2 pr.1.1 pr.1.2

theorem line_too_close_false_iff (dots : List Pt) (s : Seg) (i1 i2 : ℕ) :
    line_too_close_to_other_dots dots s i1 i2 = false ↔
      ∀ ip ∈ dots.enum, ip.1 ≠ i1 → ip.1 ≠ i2 →
        MIN_LINE_DOT_DISTANCE ^ 2 ≤ point_to_segment_distance_sq ip.2 s.1 s.2 := by
  simp only [line_too_close_to_other_dots, List.any_eq_false, decide_eq_true_eq, not_and, not_lt]

theorem connLoop_invariant (dots : List Pt) :
    ∀ (k : ℕ) (avail : List ℕ) (lines : List Seg) (pairs : List (ℕ × ℕ)),
      (∀ i ∈ avail, i < dots.length) →
      lines.length = pairs.length →
      (∀ pr ∈ lines.zip pairs, connPairOK dots pr) →
      (connLoop dots k avail lines pairs).1.length =
        (connLoop dots k avail lines pairs).2.length ∧
      ∀ pr ∈ (connLoop dots k avail lines pairs).1.zip
          (connLoop dots k avail lines pairs).2, connPairOK dots pr := by
  intro k
  induction k with
  | zero =>
    intro avail lines pairs hav hlen hok
    rw [connLoop]
    exact ⟨hlen, hok⟩
  | succ k ih =>
    intro avail lines pairs hav hlen hok
    rw [connLoop]
    dsimp only
    split_ifs with hlt
    · exact ⟨hlen, hok⟩
    · split
      · rename_i i1 i2 avail' hsome
        obtain ⟨h1, h2, h3, hd1, hd2, hcr, htc⟩ :=
          connAttempts_some dots lines pairs 1000 avail i1 i2 avail' hsome
        refine ih avail' _ _ (fun j hj => hav j (h3 j hj)) (by simp [hlen]) ?_
        intro pr hpr
        rw [List.zip_append hlen] at hpr
        rcases List.mem_append.1 hpr with hpr | hpr
        · exact hok pr hpr
        · have hpr2 : pr = ((dots.getD i1 (0, 0), dots.getD i2 (0, 0)), (i1, i2)) := by
            simpa using hpr
          subst hpr2
          exact ⟨rfl, hav i1 h1, hav i2 h2, hd1, hd2,
            (line_too_close_false_iff dots _ i1 i2).1 htc⟩
      · exact ⟨hlen, hok⟩

/-! ## Claim C2 -/

/-- C2 (amended): every free line accepted by `_generate_free_lines` of
`experiment1_connectedness.py` keeps a point-to-segment distance of at
least `0.8 * MIN_LINE_DOT_DISTANCE` (the threshold the source actually
uses, 9.6 px) from every dot, and every connecting line accepted by
`_generate_connecting_lines` keeps a distance of at least
`MIN_LINE_DOT_DISTANCE` (12 px) from every dot that is not one of its two
endpoint dots.  Stated on squared distances. -/
theorem line_dot_clearance :
    (∀ (fc : ℕ → FreeCand) (dots : List Pt) (n pos : ℕ),
      ∀ s ∈ (generate_free_lines fc dots n [] pos).1, ∀ d ∈ dots,
        (MIN_LINE_DOT_DISTANCE * (4 / 5)) ^ 2 ≤ point_to_segment_distance_sq d s.1 s.2) ∧
    (∀ (dots : List Pt) (k : ℕ) (shuffled : List ℕ),
      (∀ i ∈ shuffled, i < dots.length) →
      ∀ pr ∈ (generate_connecting_lines dots k shuffled).1.zip
          (generate_connecting_lines dots k shuffled).2,
        ∀ ip ∈ dots.enum, ip.1 ≠ pr.2.1 → ip.1 ≠ pr.2.2 →
          MIN_LINE_DOT_DISTANCE ^ 2 ≤ point_to_segment_distance_sq ip.2 pr.1.1 pr.1.2) := by
  constructor
  · intro fc dots n pos s hs d hd
    rcases generate_free_lines_mem fc dots n [] pos s hs with hmem | hclear
    · exact absurd hmem (List.not_mem_nil s)
    · exact (freeTooCloseToDots_false_iff dots s).1 hclear d hd
  · intro dots k shuffled hsh pr hpr
    obtain ⟨-, hok⟩ := connLoop_invariant dots k shuffled [] [] hsh rfl (by simp)
    exact (hok pr hpr).2.2.2.2.2

/-- Pattern of the C2 counterexample run. -/
def c2Pattern : DotPattern := ⟨1, 0, 0, [(0, 0)], [], []⟩

/-- Randomness of the C2 counterexample run: the first free-line candidate
starts at `(10, -30)` and runs vertically to `(10, 30)`, passing at
distance 10 from the dot at the origin (allowed by the source's
`MIN_LINE_DOT_DISTANCE * 0.8 = 9.6` threshold, but below the claimed 12). -/
def c2Rand : GenRand :=
  ⟨dcOf [], [0], fcOf [⟨130, 130, 0, 60⟩, ⟨20, 60, 0, 40⟩, ⟨20, 220, 0, 40⟩, ⟨220, 220, 0, 40⟩], 1⟩

/-- Result of the C2 counterexample run. -/
def c2Result : DotPattern :=
  ⟨1, 0, 0, [(0, 0)],
    [((10, -30), (10, 30)), ((-100, -100), (-100, -60)),
     ((-100, 60), (-100, 100)), ((100, 60), (100, 100))], []⟩

/-- Counterexample to C2 as stated: a generated pattern whose free line
`((10,-30),(10,30))` passes at squared distance `100 < 144 =
MIN_LINE_DOT_DISTANCE ^ 2` from the dot `(0,0)` (distance 10 < 12), because
`_generate_free_lines` only enforces `MIN_LINE_DOT_DISTANCE * 0.8`. -/
theorem line_dot_clearance_counterexample :
    c2Pattern.generate c2Rand = .ok (some c2Result) ∧
    ((10, -30), (10, 30)) ∈ c2Result.lines ∧ (0, 0) ∈ c2Result.dots ∧
    c2Result.connected_pairs = [] ∧
    point_to_segment_distance_sq (0, 0) (10, -30) (10, 30) < MIN_LINE_DOT_DISTANCE ^ 2 :=
  ⟨by with_unfolding_all rfl, by decide, by decide, rfl,
    of_decide_eq_true (by with_unfolding_all rfl)⟩

/-- Witness for the amended C2 at concrete runs of both generators. -/
theorem line_dot_clearance_witness :
    (MIN_LINE_DOT_DISTANCE * (4 / 5)) ^ 2 ≤
      point_to_segment_distance_sq (0, 0) (-100, -100) (-100, -60) ∧
    MIN_LINE_DOT_DISTANCE ^ 2 ≤ point_to_segment_distance_sq (80, 80) (-60, 0) (-10, 0) :=
  ⟨line_dot_clearance.1 (fcOf [⟨20, 60, 0, 40⟩]) [(0, 0)] 1 0
      ((-100, -100), (-100, -60)) (of_decide_eq_true (by with_unfolding_all rfl))
      (0, 0) (by decide),
   line_dot_clearance.2 [(-60, 0), (-10, 0), (80, 80)] 1 [0, 1, 2] (by decide)
      (((-60, 0), (-10, 0)), (0, 1)) (of_decide_eq_true (by with_unfolding_all rfl))
      (2, (80, 80)) (by decide) (by decide) (by decide)⟩

/-! ## Claim C3 -/

/-- C3 (amended): `_generate_connecting_lines` records at most the
requested number of connections; lines and recorded pairs stay in lockstep;
and every recorded connecting line joins the two dots indexed by its pair
(exact dot coordinates, indices in range) at a squared Euclidean distance
inside `[MIN_LINE_LENGTH ^ 2, MAX_LINE_LENGTH ^ 2]`.  The count can be
strictly below the request (see the counterexample), in which case
`_generate_lines` fills the remainder with free lines. -/
theorem connecting_lines_spec (dots : List Pt) (k : ℕ) (shuffled : List ℕ)
    (hsh : ∀ i ∈ shuffled, i < dots.length) :
    (generate_connecting_lines dots k shuffled).2.length ≤ k ∧
    (generate_connecting_lines dots k shuffled).1.length =
      (generate_connecting_lines dots k shuffled).2.length ∧
    ∀ pr ∈ (generate_connecting_lines dots k shuffled).1.zip
        (generate_connecting_lines dots k shuffled).2,
      pr.1 = (dots.getD pr.2.1 (0, 0), dots.getD pr.2.2 (0, 0)) ∧
      pr.2.1 < dots.length ∧ pr.2.2 < dots.length ∧
      MIN_LINE_LENGTH ^ 2 ≤ segLenSq pr.1 ∧ segLenSq pr.1 ≤ MAX_LINE_LENGTH ^ 2 := by
  obtain ⟨hlen, hok⟩ := connLoop_invariant dots k shuffled [] [] hsh rfl (by simp)
  have hcl := connLoop_length dots k shuffled [] []
  simp only [List.length_nil, Nat.zero_add, Nat.add_zero] at hcl
  unfold generate_connecting_lines
  refine ⟨by omega, hlen, ?_⟩
  intro pr hpr
  obtain ⟨a, b, c, d, e, -⟩ := hok pr hpr
  exact ⟨a, b, c, d, e⟩

/-- Pattern of the C3 counterexample run: two dots at distance 50,
connectedness 2 requested. -/
def c3Pattern : DotPattern := ⟨2, 2, 0, [(-60, 0), (-10, 0)], [], []⟩

/-- Randomness of the C3 counterexample run. -/
def c3Rand : GenRand :=
  ⟨dcOf [], [0, 1], fcOf [⟨20, 60, 0, 40⟩, ⟨20, 220, 0, 40⟩, ⟨220, 220, 0, 40⟩], 1⟩

/-- Result of the C3 counterexample run. -/
def c3Result : DotPattern :=
  ⟨2, 2, 0, [(-60, 0), (-10, 0)],
    [((-60, 0), (-10, 0)), ((-100, -100), (-100, -60)),
     ((-100, 60), (-100, 100)), ((100, 60), (100, 100))], [(0, 1)]⟩

/-- Counterexample to C3 as stated: a pattern requested with connectedness
level 2 generates with `connected_pairs` of length 1 — after the first
connection both dots are used up, `len(available_dots) < 2` breaks the
loop, and the shortfall is silently filled with free lines. -/
theorem connecting_lines_spec_counterexample :
    c3Pattern.generate c3Rand = .ok (some c3Result) ∧
    c3Result.connectedness = 2 ∧ c3Result.connected_pairs.length = 1 :=
  ⟨by with_unfolding_all rfl, rfl, rfl⟩

/-- Witness for the amended C3 at a concrete run. -/
theorem connecting_lines_spec_witness :
    (generate_connecting_lines [((100 : ℤ), (100 : ℤ)), (60, 100), (-80, -80)]
        1 [0, 1, 2]).2.length ≤ 1 ∧
    (generate_connecting_lines [((100 : ℤ), (100 : ℤ)), (60, 100), (-80, -80)]
        1 [0, 1, 2]).1.length =
      (generate_connecting_lines [((100 : ℤ), (100 : ℤ)), (60, 100), (-80, -80)]
        1 [0, 1, 2]).2.length :=
  ⟨(connecting_lines_spec [((100 : ℤ), (100 : ℤ)), (60, 100), (-80, -80)] 1 [0, 1, 2]
      (by decide)).1,
   (connecting_lines_spec [((100 : ℤ), (100 : ℤ)), (60, 100), (-80, -80)] 1 [0, 1, 2]
      (by decide)).2.1⟩

/-! ## Claim C1 -/

/-- Pattern of the C1 exhibit run: two dots at distance 50, connectedness
1. -/
def c1Pattern : DotPattern := ⟨2, 1, 0, [(0, -25), (0, 25)], [], []⟩

/-- Randomness of the C1 exhibit run: the first free-line candidate runs
horizontally from `(-30, 0)` to `(30, 0)`, straight through the connecting
line joining `(0, -25)` and `(0, 25)`. -/
def c1Rand : GenRand :=
  ⟨dcOf [], [0, 1], fcOf [⟨90, 160, 60, 0⟩, ⟨20, 60, 0, 40⟩, ⟨20, 220, 0, 40⟩, ⟨220, 220, 0, 40⟩], 1⟩

/-- Result of the C1 exhibit run. -/
def c1Result : DotPattern :=
  ⟨2, 1, 0, [(0, -25), (0, 25)],
    [((0, -25), (0, 25)), ((-30, 0), (30, 0)), ((-100, -100), (-100, -60)),
     ((-100, 60), (-100, 100))], [(0, 1)]⟩

/-- C1 exhibit: `DotPattern.generate` accepts a pattern whose free line
`((-30,0),(30,0))` properly crosses its connecting line `((0,-25),(0,25))`
(the intersection predicate returns true on the pair, in both argument
orders), because `_generate_free_lines` checks candidates only against the
free lines of its own batch and never against the connecting lines already
in `lines` — unlike `generate_free_lines` of `step3_connecting_lines.py`,
which passes the existing lines into the crossing check. -/
theorem crossing_free_line_reachable :
    c1Pattern.generate c1Rand = .ok (some c1Result) ∧
    ((0, -25), (0, 25)) ∈ c1Result.lines ∧
    ((-30, 0), (30, 0)) ∈ c1Result.lines ∧
    lines_intersect ((-30, 0), (30, 0)) ((0, -25), (0, 25)) = true ∧
    lines_intersect ((0, -25), (0, 25)) ((-30, 0), (30, 0)) = true :=
  ⟨by with_unfolding_all rfl, by decide, by decide,
    by with_unfolding_all rfl, by with_unfolding_all rfl⟩

/-! ## Claim C5 -/

theorem generate_with_empty_dots (p : DotPattern) (r : GenRand) (q : DotPattern)
    (hemp : p.dots = []) (h : p.generate r = .ok (some q)) :
    q.num_dots = p.num_dots ∧ q.connectedness = p.connectedness ∧
      q.pattern_id = p.pattern_id ∧ q.dots.length = p.num_dots := by
  unfold DotPattern.generate at h
  rw [if_pos (by simp [hemp])] at h
  rcases hgd : generate_dots r.dc p.num_dots [] 0 with e | ⟨ds, pos⟩ <;>
    rw [hgd] at h <;> dsimp only [Except.map] at h
  · exact absurd h (by simp)
  · split at h
    · exact absurd h (by simp)
    · rename_i ls prs pos2 hgl
      obtain rfl : _ = q := by simpa using h
      obtain ⟨hlen, -, -⟩ := generate_dots_spec r.dc p.num_dots [] 0 ds pos hgd
      exact ⟨rfl, rfl, rfl, by simpa using hlen⟩

theorem buildFamilyAttempt_ok (n pid : ℕ) (r0 r1 r2 : GenRand)
    (b p1 p2 : DotPattern)
    (h : buildFamilyAttempt n pid r0 r1 r2 = .ok (some (b, p1, p2))) :
    (mkPattern n 0 pid none).generate r0 = .ok (some b) ∧
    (mkPattern n 1 pid (some b.dots)).generate r1 = .ok (some p1) ∧
    (mkPattern n 2 pid (some b.dots)).generate r2 = .ok (some p2) := by
  unfold buildFamilyAttempt at h
  split at h
  · exact absurd h (by simp)
  · exact absurd h (by simp)
  · rename_i base hbase
    split at h
    · exact absurd h (by simp)
    · exact absurd h (by simp)
    · rename_i q1 hq1
      split at h
      · exact absurd h (by simp)
      · exact absurd h (by simp)
      · rename_i q2 hq2
        obtain ⟨rfl, rfl, rfl⟩ : base = b ∧ q1 = p1 ∧ q2 = p2 := by
          simpa [Prod.ext_iff] using h
        exact ⟨hbase, hq1, hq2⟩

theorem familyTriple_dots (n pid : ℕ) (r0 r1 r2 : GenRand) (b p1 p2 : DotPattern)
    (h : buildFamilyAttempt n pid r0 r1 r2 = .ok (some (b, p1, p2))) :
    p1.dots = b.dots ∧ p2.dots = b.dots ∧ b.connectedness = 0 ∧
      p1.connectedness = 1 ∧ p2.connectedness = 2 := by
  obtain ⟨hb, h1, h2⟩ := buildFamilyAttempt_ok n pid r0 r1 r2 b p1 p2 h
  have hbb := generate_with_empty_dots (mkPattern n 0 pid none) r0 b (by simp [mkPattern]) hb
  rcases eq_or_ne b.dots [] with hbd | hbd
  · have hn : n = 0 := by
      have := hbb.2.2.2
      rw [hbd] at this
      simpa [mkPattern] using this.symm
    have h1e := generate_with_empty_dots (mkPattern n 1 pid (some b.dots)) r1 p1
      (by simp [mkPattern, hbd]) h1
    have h2e := generate_with_empty_dots (mkPattern n 2 pid (some b.dots)) r2 p2
      (by simp [mkPattern, hbd]) h2
    refine ⟨?_, ?_, by simpa [mkPattern] using hbb.2.1,
      by simpa [mkPattern] using h1e.2.1, by simpa [mkPattern] using h2e.2.1⟩
    · have h1n := h1e.2.2.2
      simp [mkPattern, hn] at h1n
      rw [hbd]
      exact h1n
    · have h2n := h2e.2.2.2
      simp [mkPattern, hn] at h2n
      rw [hbd]
      exact h2n
  · have h1p := generate_with_dots_provided (mkPattern n 1 pid (some b.dots)) r1 p1
      (by simpa [mkPattern] using hbd) h1
    have h2p := generate_with_dots_provided (mkPattern n 2 pid (some b.dots)) r2 p2
      (by simpa [mkPattern] using hbd) h2
    exact ⟨by simpa [mkPattern] using h1p.1, by simpa [mkPattern] using h2p.1,
      by simpa [mkPattern] using hbb.2.1, by simpa [mkPattern] using h1p.2.2.1,
      by simpa [mkPattern] using h2p.2.2.1⟩

theorem familyRetry_ok (n pid : ℕ) (rs : ℕ → GenRand × GenRand × GenRand) :
    ∀ (rem k : ℕ) (t : DotPattern × DotPattern × DotPattern),
      familyRetry n pid rs k rem = .ok (some t) →
      ∃ j, buildFamilyAttempt n pid (rs j).1 (rs j).2.1 (rs j).2.2 = .ok (some t) := by
  intro rem
  induction rem with
  | zero =>
    intro k t h
    exact absurd h (by simp [familyRetry])
  | succ rem ih =>
    intro k t h
    rw [familyRetry] at h
    split at h
    · rename_i v hv
      obtain rfl : v = some t := by simpa using h
      exact ⟨k, hv⟩
    · rename_i e he
      split_ifs at h with hrem
      · exact ih (k + 1) t h

theorem familyRetry_all_error (n pid : ℕ) (rs : ℕ → GenRand × GenRand × GenRand) :
    ∀ (rem k : ℕ),
      (∀ j, ∃ e, buildFamilyAttempt n pid (rs j).1 (rs j).2.1 (rs j).2.2 = .error e) →
      ∃ e, familyRetry n pid rs k rem = .error e := by
  intro rem
  induction rem with
  | zero =>
    intro k h
    exact ⟨"Failed to generate pattern", rfl⟩
  | succ rem ih =>
    intro k h
    obtain ⟨e, he⟩ := h k
    rw [familyRetry, he]
    dsimp only
    split_ifs with hrem
    · exact ⟨e, rfl⟩
    · exact ih (k + 1) h

/-- C5: family construction in `generate_all_patterns` is all-or-nothing.
If a cell commits (returns updated pools), then the three pools were each
extended by exactly one pattern, the three patterns carry connectedness
0, 1, 2, and the 1- and 2-connection variants have `dots` element-wise
identical to the base pattern's; and if every attempt in the retry budget
raises, the cell propagates the error and the pools are not extended
(the error branch of `generateFamilyCell` returns no pools at all). -/
theorem family_all_or_nothing :
    (∀ (n pid : ℕ) (rs : ℕ → GenRand × GenRand × GenRand) (pools pools' : Pools),
      generateFamilyCell n pid rs pools = .ok (some pools') →
      ∃ b p1 p2 : DotPattern,
        pools'.c0 = pools.c0 ++ [b] ∧ pools'.c1 = pools.c1 ++ [p1] ∧
        pools'.c2 = pools.c2 ++ [p2] ∧ p1.dots = b.dots ∧ p2.dots = b.dots ∧
        b.connectedness = 0 ∧ p1.connectedness = 1 ∧ p2.connectedness = 2) ∧
    (∀ (n pid : ℕ) (rs : ℕ → GenRand × GenRand × GenRand) (pools : Pools),
      (∀ j, ∃ e, buildFamilyAttempt n pid (rs j).1 (rs j).2.1 (rs j).2.2 = .error e) →
      ∃ e, generateFamilyCell n pid rs pools = .error e) := by
  constructor
  · intro n pid rs pools pools' h
    unfold generateFamilyCell at h
    split at h
    · exact absurd h (by simp)
    · exact absurd h (by simp)
    · rename_i b p1 p2 hfr
      obtain rfl : _ = pools' := by simpa using h
      obtain ⟨j, hat⟩ := familyRetry_ok n pid rs 10 0 (b, p1, p2) hfr
      obtain ⟨hd1, hd2, hc0, hc1, hc2⟩ :=
        familyTriple_dots n pid (rs j).1 (rs j).2.1 (rs j).2.2 b p1 p2 hat
      exact ⟨b, p1, p2, rfl, rfl, rfl, hd1, hd2, hc0, hc1, hc2⟩
  · intro n pid rs pools h
    obtain ⟨e, he⟩ := familyRetry_all_error n pid rs 10 0 h
    refine ⟨e, ?_⟩
    unfold generateFamilyCell
    rw [he]

/-- Randomness of the base member of the C5 witness family. -/
def c5R0 : GenRand :=
  ⟨dcOf [(0, 0), (50, 0)], [],
    fcOf [⟨20, 220, 0, 40⟩, ⟨60, 220, 0, 40⟩, ⟨220, 220, 0, 40⟩, ⟨180, 220, 0, 40⟩], 1⟩

/-- Randomness of the one- and two-connection members of the C5 witness
family. -/
def c5R12 : GenRand :=
  ⟨dcOf [], [0, 1], fcOf [⟨20, 220, 0, 40⟩, ⟨220, 220, 0, 40⟩, ⟨180, 220, 0, 40⟩], 1⟩

/-- Pools produced by the C5 witness family cell. -/
def c5Pools : Pools :=
  ⟨[⟨2, 0, 0, [(-120, -160), (-70, -160)],
      [((-100, 60), (-100, 100)), ((-60, 60), (-60, 100)),
       ((100, 60), (100, 100)), ((60, 60), (60, 100))], []⟩],
   [⟨2, 1, 0, [(-120, -160), (-70, -160)],
      [((-120, -160), (-70, -160)), ((-100, 60), (-100, 100)),
       ((100, 60), (100, 100)), ((60, 60), (60, 100))], [(0, 1)]⟩],
   [⟨2, 2, 0, [(-120, -160), (-70, -160)],
      [((-120, -160), (-70, -160)), ((-100, 60), (-100, 100)),
       ((100, 60), (100, 100)), ((60, 60), (60, 100))], [(0, 1)]⟩]⟩

/-- Always-failing randomness bundle for the C5 witness: the constant dot
oracle can never place a second dot. -/
def c5ErrRand : GenRand := ⟨dcOf [], [], fcOf [], 0⟩

theorem c5_attempt_err :
    buildFamilyAttempt 2 0 c5ErrRand c5ErrRand c5ErrRand =
      .error "Could not place dot" := by
  unfold buildFamilyAttempt
  rw [generate_err_of_dots_err (mkPattern 2 0 0 none) c5ErrRand _ rfl
    generate_dots_const_err]

/-- Witness for C5: a concrete committing family cell and a concrete
always-failing one. -/
theorem family_all_or_nothing_witness :
    (∃ b p1 p2 : DotPattern,
      c5Pools.c0 = ([] : List DotPattern) ++ [b] ∧
      c5Pools.c1 = ([] : List DotPattern) ++ [p1] ∧
      c5Pools.c2 = ([] : List DotPattern) ++ [p2] ∧
      p1.dots = b.dots ∧ p2.dots = b.dots ∧
      b.connectedness = 0 ∧ p1.connectedness = 1 ∧ p2.connectedness = 2) ∧
    (∃ e, generateFamilyCell 2 0 (fun _ => (c5ErrRand, c5ErrRand, c5ErrRand))
      ⟨[], [], []⟩ = .error e) :=
  ⟨family_all_or_nothing.1 2 0 (fun _ => (c5R0, c5R12, c5R12)) ⟨[], [], []⟩ c5Pools
      (by with_unfolding_all rfl),
   family_all_or_nothing.2 2 0 (fun _ => (c5ErrRand, c5ErrRand, c5ErrRand)) ⟨[], [], []⟩
      (fun j => ⟨"Could not place dot", c5_attempt_err⟩)⟩

/-! ## Claim C8 -/

/-- C8: the trial list built by `create_trial_list` consists of two halves
of equal length that visit the shuffled indices in the same order: for
every position `j`, the second-half trial at offset `len + j` pairs the
same reference and test patterns as the first-half trial at `j` and
negates its `test_on_left` flag (so each condition appears exactly once
with the test pattern on the left and once on the right within a block).
The hypothesis that the shuffled index list has no duplicates holds for
any shuffle of `range(TRIALS_PER_HALF_BLOCK)`. -/
theorem trial_list_mirrored (refs tests : List DotPattern) (indices : List ℕ)
    (flips : ℕ → Bool) (blockNum : ℕ) (hnd : indices.Nodup) :
    (create_trial_list refs tests indices flips blockNum).length = 2 * indices.length ∧
    ∀ j, j < indices.length →
      ((create_trial_list refs tests indices flips blockNum).getD j default).half = 1 ∧
      ((create_trial_list refs tests indices flips blockNum).getD
        (indices.length + j) default).half = 2 ∧
      ((create_trial_list refs tests indices flips blockNum).getD
          (indices.length + j) default).ref =
        ((create_trial_list refs tests indices flips blockNum).getD j default).ref ∧
      ((create_trial_list refs tests indices flips blockNum).getD
          (indices.length + j) default).test =
        ((create_trial_list refs tests indices flips blockNum).getD j default).test ∧
      ((create_trial_list refs tests indices flips blockNum).getD
          (indices.length + j) default).test_on_left =
        !((create_trial_list refs tests indices flips blockNum).getD
            j default).test_on_left := by
  unfold create_trial_list
  have hlenF : (indices.enum.map fun ji =>
      mkTrial blockNum 1 (refs.getD ji.2 default) (tests.getD ji.2 default)
        (flips ji.1)).length = indices.length := by
    rw [List.length_map, List.enum_length]
  have hFH : ∀ (j : ℕ) (hj : j < indices.length),
      (indices.enum.map fun ji =>
        mkTrial blockNum 1 (refs.getD ji.2 default) (tests.getD ji.2 default)
          (flips ji.1))[j]? =
      some (mkTrial blockNum 1 (refs.getD indices[j] default)
        (tests.getD indices[j] default) (flips j)) := by
    intro j hj
    rw [List.getElem?_map, List.getElem?_enum, List.getElem?_eq_getElem hj]
    rfl
  have hFHD : ∀ (j : ℕ) (hj : j < indices.length),
      (indices.enum.map fun ji =>
        mkTrial blockNum 1 (refs.getD ji.2 default) (tests.getD ji.2 default)
          (flips ji.1)).getD j default =
      mkTrial blockNum 1 (refs.getD indices[j] default)
        (tests.getD indices[j] default) (flips j) := by
    intro j hj
    rw [List.getD_eq_getElem?_getD, hFH j hj]
    rfl
  constructor
  · rw [List.length_append, hlenF, List.length_map]
    omega
  · intro j hj
    have hidx : List.indexOf indices[j] indices = j := List.indexOf_getElem hnd j hj
    have hget1 : ((indices.enum.map fun ji =>
        mkTrial blockNum 1 (refs.getD ji.2 default) (tests.getD ji.2 default)
          (flips ji.1)) ++ indices.map fun idx =>
        mkTrial blockNum 2 (refs.getD idx default) (tests.getD idx default)
          (!((indices.enum.map fun ji =>
            mkTrial blockNum 1 (refs.getD ji.2 default) (tests.getD ji.2 default)
              (flips ji.1)).getD (indices.indexOf idx) default).test_on_left)).getD j default =
        mkTrial blockNum 1 (refs.getD indices[j] default)
          (tests.getD indices[j] default) (flips j) := by
      rw [List.getD_eq_getElem?_getD, List.getElem?_append_left (by omega), hFH j hj]
      rfl
    have hget2 : ((indices.enum.map fun ji =>
        mkTrial blockNum 1 (refs.getD ji.2 default) (tests.getD ji.2 default)
          (flips ji.1)) ++ indices.map fun idx =>
        mkTrial blockNum 2 (refs.getD idx default) (tests.getD idx default)
          (!((indices.enum.map fun ji =>
            mkTrial blockNum 1 (refs.getD ji.2 default) (tests.getD ji.2 default)
              (flips ji.1)).getD (indices.indexOf idx) default).test_on_left)).getD
          (indices.length + j) default =
        mkTrial blockNum 2 (refs.getD indices[j] default)
          (tests.getD indices[j] default) (!(flips j)) := by
      rw [List.getD_eq_getElem?_getD, List.getElem?_append_right (by omega)]
      have : indices.length + j - (indices.enum.map fun ji =>
          mkTrial blockNum 1 (refs.getD ji.2 default) (tests.getD ji.2 default)
            (flips ji.1)).length = j := by omega
      rw [this, List.getElem?_map, List.getElem?_eq_getElem hj]
      dsimp only [Option.map, Option.getD]
      rw [hidx, hFHD j hj]
      rfl
    rw [hget1, hget2]
    exact ⟨rfl, rfl, rfl, rfl, rfl⟩

/-- Witness for C8 at a concrete two-index trial list. -/
theorem trial_list_mirrored_witness :
    (create_trial_list [] [] [0, 1] (fun _ => true) 1).length = 2 * 2 ∧
    ((create_trial_list [] [] [0, 1] (fun _ => true) 1).getD 0 default).half = 1 := by
  have h := trial_list_mirrored [] [] [0, 1] (fun _ => true) 1 (by decide)
  exact ⟨h.1, (h.2 0 (by decide)).1⟩

end Exp1
